import Mathlib

/-!
Shallow embedding of the `nvector` geodetic library (Gade 2010 n-vector
formulation) and verification of its specification.

Go `float64` values are modelled as real numbers; the standard library
functions `math.Mod`, `math.Atan2`, `math.Cbrt`, `math.Pow` are modelled
by `goMod`, `atan2`, `cbrt`, `powf` below, following their documented
real-valued semantics (in particular `math.Mod` is the *truncated*
remainder: its result has the sign of the first argument).
-/

namespace nvector

open Real

/-- Truncation toward zero, as performed by Go `math.Trunc` (the integral
part used by `math.Mod`). -/
noncomputable def truncR (t : ℝ) : ℝ :=
  if 0 ≤ t then (⌊t⌋ : ℤ) else (⌈t⌉ : ℤ)

/-- Go `math.Mod x y`: the truncated floating-point remainder; the result
has the sign of `x` and magnitude less than `|y|`. -/
noncomputable def goMod (x y : ℝ) : ℝ :=
  x - y * truncR (x / y)

/-- Go `math.Atan2 y x`: the angle of the point `(x, y)` in `(-pi, pi]`,
modelled branch by branch from the documented behaviour. -/
noncomputable def atan2 (y x : ℝ) : ℝ :=
  if 0 < x then arctan (y / x)
  else if x < 0 then
    (if 0 ≤ y then arctan (y / x) + π else arctan (y / x) - π)
  else
    (if 0 < y then π / 2 else if y < 0 then -(π / 2) else 0)

/-- Go `math.Cbrt`: the real cube root, an odd function. -/
noncomputable def cbrt (x : ℝ) : ℝ :=
  if x < 0 then -((-x) ^ ((1 : ℝ) / 3)) else x ^ ((1 : ℝ) / 3)

/-- Go `math.Pow`: real exponentiation. -/
noncomputable def powf (x y : ℝ) : ℝ := x ^ y

/-- `Vec3`: ordered triple of (modelled) doubles; `type Vec3 [3]float64`. -/
structure Vec3 where
  x : ℝ
  y : ℝ
  z : ℝ


/-- `Matrix3`: row-major 3x3 matrix; `type Matrix3 [3][3]float64`. -/
structure Matrix3 where
  r0 : Vec3
  r1 : Vec3
  r2 : Vec3


/-- `NVector`: wraps a `Vec3` intended to be a unit surface normal. -/
structure NVector where
  v : Vec3


/-- `PVector`: wraps a `Vec3`, a Cartesian position on the ellipsoid. -/
structure PVector where
  v : Vec3


/-- `LonLat`: longitude and latitude in radians. -/
structure LonLat where
  Lon : ℝ
  Lat : ℝ


/-- `Ellipsoid`: semi-major axis `a` and semi-minor axis `b`. -/
structure Ellipsoid where
  a : ℝ
  b : ℝ


/-- `InvalidLatitudeError`: carries the rejected degree value. -/
structure InvalidLatitudeError where
  Lat : ℝ


/-- `NoIntersectionError`: carries no payload. -/
structure NoIntersectionError where


/-- `func cross(u, v *Vec3) *Vec3`. -/
noncomputable def cross (u v : Vec3) : Vec3 :=
  ⟨u.y * v.z - u.z * v.y, u.z * v.x - u.x * v.z, u.x * v.y - u.y * v.x⟩

/-- `func dot(u, v *Vec3) float64`. -/
noncomputable def dot (u v : Vec3) : ℝ :=
  u.x * v.x + u.y * v.y + u.z * v.z

/-- `func (v *Vec3) Magnitude() float64`. -/
noncomputable def Vec3.Magnitude (v : Vec3) : ℝ :=
  Real.sqrt (v.x * v.x + v.y * v.y + v.z * v.z)

/-- `func (m *Matrix3) Mult(v *Vec3) Vec3`. -/
noncomputable def Matrix3.Mult (m : Matrix3) (v : Vec3) : Vec3 :=
  ⟨v.x * m.r0.x + v.y * m.r0.y + v.z * m.r0.z,
   v.x * m.r1.x + v.y * m.r1.y + v.z * m.r1.z,
   v.x * m.r2.x + v.y * m.r2.y + v.z * m.r2.z⟩

/-- `func (m *Matrix3) Transpose() Matrix3`. -/
noncomputable def Matrix3.Transpose (m : Matrix3) : Matrix3 :=
  ⟨⟨m.r0.x, m.r1.x, m.r2.x⟩,
   ⟨m.r0.y, m.r1.y, m.r2.y⟩,
   ⟨m.r0.z, m.r1.z, m.r2.z⟩⟩

/-- `func NewLonLat(londeg float64, latdeg float64) (*LonLat, error)`:
degree-to-radian conversion, longitude normalization via `math.Mod`, and
latitude validation.  The Go `error` result is modelled as an
`Option InvalidLatitudeError` (the only error value the function produces). -/
noncomputable def NewLonLat (londeg latdeg : ℝ) :
    LonLat × Option InvalidLatitudeError :=
  let lon0 := londeg * π / 180
  let lat := latdeg * π / 180
  let lon := goMod (lon0 + π) (2 * π) - π
  if lat < -(0.5 * π) ∨ lat > 0.5 * π then
    (⟨0, 0⟩, some ⟨latdeg⟩)
  else
    (⟨lon, lat⟩, none)

/-- `func (ll *LonLat) ToNVector() NVector`. -/
noncomputable def LonLat.ToNVector (ll : LonLat) : NVector :=
  ⟨⟨Real.cos ll.Lon * Real.cos ll.Lat,
    Real.sin ll.Lon * Real.cos ll.Lat,
    Real.sin ll.Lat⟩⟩

/-- `func (nv *NVector) ToLonLat() LonLat`. -/
noncomputable def NVector.ToLonLat (nv : NVector) : LonLat :=
  let lat := atan2 nv.v.z (Real.sqrt (nv.v.x * nv.v.x + nv.v.y * nv.v.y))
  let lon0 := atan2 nv.v.y nv.v.x
  let lon := goMod (lon0 + 0.5 * π) π - 0.5 * π
  ⟨lon, lat⟩

/-- `func (nv *NVector) ToPVector(ellps *Ellipsoid) PVector`. -/
noncomputable def NVector.ToPVector (nv : NVector) (ellps : Ellipsoid) : PVector :=
  let absq := ellps.a * ellps.a / (ellps.b * ellps.b)
  let coeff := ellps.b / Real.sqrt (nv.v.z * nv.v.z +
    absq * nv.v.y * nv.v.y + absq * nv.v.x * nv.v.x)
  ⟨⟨coeff * absq * nv.v.x, coeff * absq * nv.v.y, coeff * nv.v.z⟩⟩

/-- `func (pv *PVector) ToNVector(ellps *Ellipsoid) NVector`: closed-form
(Gade 2010) recovery of the surface normal from a Cartesian position. -/
noncomputable def PVector.ToNVector (pv : PVector) (ellps : Ellipsoid) : NVector :=
  let eccen := Real.sqrt (1 - ellps.b * ellps.b / (ellps.a * ellps.a))
  let eccen2 := eccen * eccen
  let eccen4 := eccen2 * eccen2
  let a2 := ellps.a * ellps.a
  let q := (1 - eccen2) / a2 * pv.v.z * pv.v.z
  let p := (pv.v.y * pv.v.y + pv.v.x * pv.v.x) / a2
  let r := (p + q - eccen4) / 6
  let s := eccen4 * p * q / (4 * powf r 3)
  let t := cbrt (1 + s + Real.sqrt (s * (2 + s)))
  let u := r * (1 + t + 1 / t)
  let v := Real.sqrt (u * u + eccen4 * q)
  let w := 0.5 * eccen2 * (u + v - q) / v
  let k := Real.sqrt (u + v + w * w) - w
  let d := k * Real.sqrt (pv.v.y * pv.v.y + pv.v.x * pv.v.x) / (k + eccen2)
  let coeff := 1 / Real.sqrt (d * d + pv.v.z * pv.v.z)
  let kke2 := k / (k + eccen2)
  ⟨⟨-coeff * kke2 * pv.v.x, -coeff * kke2 * pv.v.y, coeff * pv.v.z⟩⟩

/-- The first intermediate vector of `RotationMatrix`:
`east := cross(&Vec3{0, 0, 1}, &nv.Vec3)`. -/
noncomputable def rotationEast (nv : NVector) : Vec3 :=
  cross ⟨0, 0, 1⟩ nv.v

/-- The second intermediate vector of `RotationMatrix`:
`north := cross(&nv.Vec3, east)`. -/
noncomputable def rotationNorth (nv : NVector) : Vec3 :=
  cross nv.v (rotationEast nv)

/-- `func (nv *NVector) RotationMatrix() Matrix3`. -/
noncomputable def NVector.RotationMatrix (nv : NVector) : Matrix3 :=
  let east := rotationEast nv
  let north := rotationNorth nv
  ⟨⟨north.x / north.Magnitude, east.x / east.Magnitude, -nv.v.x⟩,
   ⟨north.y / north.Magnitude, east.y / east.Magnitude, -nv.v.y⟩,
   ⟨north.z / north.Magnitude, east.z / east.Magnitude, -nv.v.z⟩⟩

/-- `func (nv *NVector) SphericalDistance(nv2 *NVector, R float64) float64`. -/
noncomputable def NVector.SphericalDistance (nv nv2 : NVector) (R : ℝ) : ℝ :=
  atan2 (cross nv.v nv2.v).Magnitude (dot nv.v nv2.v) * R

/-- `func (nv *NVector) Azimuth(nv2 *NVector, ellps *Ellipsoid) float64`. -/
noncomputable def NVector.Azimuth (nv nv2 : NVector) (ellps : Ellipsoid) : ℝ :=
  let pv1 := nv.ToPVector ellps
  let pv2 := nv2.ToPVector ellps
  let delta_E : Vec3 := ⟨pv2.v.x - pv1.v.x, pv2.v.y - pv1.v.y, pv2.v.z - pv1.v.z⟩
  let rotMat_EN := nv.RotationMatrix
  let rotMat_NE := rotMat_EN.Transpose
  let delta_N := rotMat_NE.Mult delta_E
  atan2 delta_N.y delta_N.x

/-- `func (nv *NVector) Forward(az, distance, radius float64) NVector`. -/
noncomputable def NVector.Forward (nv : NVector) (az distance radius : ℝ) : NVector :=
  let east := cross nv.v ⟨0, 0, -1⟩
  let north := cross nv.v east
  let cos_az := Real.cos az
  let sin_az := Real.sin az
  let vec_az : Vec3 := ⟨north.x * cos_az + east.x * sin_az,
    north.y * cos_az + east.y * sin_az,
    north.z * cos_az + east.z * sin_az⟩
  let sab := distance / radius
  let cos_sab := Real.cos sab
  let sin_sab := Real.sin sab
  ⟨⟨nv.v.x * cos_sab + vec_az.x * sin_sab,
    nv.v.y * cos_sab + vec_az.y * sin_sab,
    nv.v.z * cos_sab + vec_az.z * sin_sab⟩⟩

/-- `func interpLinear(x, x0, x1, y0, y1 float64) float64`. -/
noncomputable def interpLinear (x x0 x1 y0 y1 : ℝ) : ℝ :=
  (x - x0) / (x1 - x0) * (y1 - y0) + y0

/-- `func (nv *NVector) Interpolate(nv2 *NVector, frac float64) NVector`. -/
noncomputable def NVector.Interpolate (nv nv2 : NVector) (frac : ℝ) : NVector :=
  ⟨⟨interpLinear frac 0 1 nv.v.x nv2.v.x,
    interpLinear frac 0 1 nv.v.y nv2.v.y,
    interpLinear frac 0 1 nv.v.z nv2.v.z⟩⟩

/-- `func Intersection(nv1a, nv1b, nv2a, nv2b *NVector) (NVector, error)`:
the Go `error` is modelled as `Option NoIntersectionError`, assigned by the
same two sequential conditional writes as the source. -/
noncomputable def Intersection (nv1a nv1b nv2a nv2b : NVector) :
    NVector × Option NoIntersectionError :=
  let normalA := cross nv1a.v nv1b.v
  let normalB := cross nv2a.v nv2b.v
  let inter0 := cross normalA normalB
  let inter := if dot inter0 nv1a.v < 0 then
      Vec3.mk (-inter0.x) (-inter0.y) (-inter0.z)
    else inter0
  let result : NVector := ⟨inter⟩
  let err1 : Option NoIntersectionError :=
    if |nv1a.SphericalDistance nv1b 1 - nv1a.SphericalDistance result 1 -
        nv1b.SphericalDistance result 1| > 1e-9 then some ⟨⟩ else none
  let err2 : Option NoIntersectionError :=
    if |nv2a.SphericalDistance nv2b 1 - nv2a.SphericalDistance result 1 -
        nv2b.SphericalDistance result 1| > 1e-9 then some ⟨⟩ else err1
  (⟨inter⟩, err2)

/-! Helper lemmas about the modelled standard-library functions. -/

lemma goMod_eq_self {x y : ℝ} (hx : 0 ≤ x) (hxy : x < y) : goMod x y = x := by
  have hy : 0 < y := lt_of_le_of_lt hx hxy
  have h1 : 0 ≤ x / y := div_nonneg hx hy.le
  have h2 : x / y < 1 := (div_lt_one hy).mpr hxy
  unfold goMod truncR
  rw [if_pos h1, Int.floor_eq_zero_iff.mpr (Set.mem_Ico.mpr ⟨h1, h2⟩)]
  push_cast
  ring

lemma goMod_nonneg_lt {x y : ℝ} (hx : 0 ≤ x) (hy : 0 < y) :
    0 ≤ goMod x y ∧ goMod x y < y := by
  have h1 : 0 ≤ x / y := div_nonneg hx hy.le
  have key : goMod x y = y * Int.fract (x / y) := by
    unfold goMod truncR
    rw [if_pos h1, Int.fract, mul_sub, mul_div_cancel₀ x hy.ne']
  rw [key]
  constructor
  · exact mul_nonneg hy.le (Int.fract_nonneg _)
  · calc y * Int.fract (x / y) < y * 1 :=
          mul_lt_mul_of_pos_left (Int.fract_lt_one _) hy
    _ = y := mul_one y

lemma atan2_pos_x (y x : ℝ) (hx : 0 < x) : atan2 y x = arctan (y / x) := by
  unfold atan2
  rw [if_pos hx]

lemma atan2_nonneg_le_pi (y x : ℝ) (hy : 0 ≤ y) :
    0 ≤ atan2 y x ∧ atan2 y x ≤ π := by
  have hpi := pi_pos
  unfold atan2
  by_cases h1 : 0 < x
  · rw [if_pos h1]
    constructor
    · rw [← arctan_zero]
      exact arctan_strictMono.monotone (div_nonneg hy h1.le)
    · linarith [arctan_lt_pi_div_two (y / x)]
  · rw [if_neg h1]
    by_cases h2 : x < 0
    · rw [if_pos h2, if_pos hy]
      constructor
      · linarith [neg_pi_div_two_lt_arctan (y / x)]
      · have hq : y / x ≤ 0 := div_nonpos_iff.mpr (Or.inl ⟨hy, h2.le⟩)
        have harc : arctan (y / x) ≤ 0 := by
          rw [← arctan_zero]
          exact arctan_strictMono.monotone hq
        linarith
    · rw [if_neg h2]
      by_cases h4 : 0 < y
      · rw [if_pos h4]
        constructor <;> linarith
      · rw [if_neg h4, if_neg (not_lt.mpr hy)]
        exact ⟨le_refl 0, hpi.le⟩

lemma cross_self (u : Vec3) : cross u u = ⟨0, 0, 0⟩ := by
  simp only [cross, Vec3.mk.injEq]
  refine ⟨by ring, by ring, by ring⟩

/-! Claim theorems. -/

/-- C3: for every pair of n-vectors `a`, `b`, `Interpolate a b 0 = a` and
`Interpolate a b 1 = b` exactly, with no tolerance, following
`result_i = (frac - 0)/(1 - 0) * (b_i - a_i) + a_i` (floats modelled as
reals; the identity is exact in the model). -/
theorem interpolate_endpoints (a b : NVector) :
    a.Interpolate b 0 = a ∧ a.Interpolate b 1 = b := by
  obtain ⟨⟨ax, ay, az⟩⟩ := a
  obtain ⟨⟨bx, b2, bz⟩⟩ := b
  constructor <;>
    · simp only [NVector.Interpolate, interpLinear, NVector.mk.injEq, Vec3.mk.injEq]
      norm_num

/-- C7: `SphericalDistance nv nv R = 0` exactly for every unit n-vector
`nv` and radius `R`; and `SphericalDistance a b R = SphericalDistance b a R`
for every pair of n-vectors and every radius. -/
theorem sphericalDistance_self_and_symm :
    (∀ (nv : NVector) (R : ℝ), nv.v.Magnitude = 1 →
      nv.SphericalDistance nv R = 0) ∧
    (∀ (a b : NVector) (R : ℝ),
      a.SphericalDistance b R = b.SphericalDistance a R) := by
  constructor
  · intro nv R h
    have hS : (0:ℝ) ≤ nv.v.x * nv.v.x + nv.v.y * nv.v.y + nv.v.z * nv.v.z :=
      add_nonneg (add_nonneg (mul_self_nonneg _) (mul_self_nonneg _))
        (mul_self_nonneg _)
    have hdot : dot nv.v nv.v = 1 := by
      have h1 : Real.sqrt (nv.v.x * nv.v.x + nv.v.y * nv.v.y + nv.v.z * nv.v.z) = 1 := h
      have h2 := Real.sq_sqrt hS
      rw [h1] at h2
      simp only [dot]
      nlinarith
    unfold NVector.SphericalDistance
    rw [cross_self, hdot]
    have hmag : Vec3.Magnitude ⟨0, 0, 0⟩ = 0 := by
      simp [Vec3.Magnitude]
    rw [hmag, atan2_pos_x 0 1 one_pos]
    simp [arctan_zero]
  · intro a b R
    unfold NVector.SphericalDistance
    have hd : dot a.v b.v = dot b.v a.v := by
      simp only [dot]
      ring
    have hm : (cross a.v b.v).Magnitude = (cross b.v a.v).Magnitude := by
      simp only [cross, Vec3.Magnitude]
      congr 1
      ring
    rw [hd, hm]

/-- Witness for C7 at concrete inputs. -/
theorem sphericalDistance_self_and_symm_witness :
    NVector.SphericalDistance ⟨⟨1, 0, 0⟩⟩ ⟨⟨1, 0, 0⟩⟩ 5 = 0 ∧
    NVector.SphericalDistance ⟨⟨1, 2, 3⟩⟩ ⟨⟨4, 5, 6⟩⟩ 7 =
      NVector.SphericalDistance ⟨⟨4, 5, 6⟩⟩ ⟨⟨1, 2, 3⟩⟩ 7 := by
  constructor
  · exact sphericalDistance_self_and_symm.1 ⟨⟨1, 0, 0⟩⟩ 5
      (by simp [Vec3.Magnitude])
  · exact sphericalDistance_self_and_symm.2 ⟨⟨1, 2, 3⟩⟩ ⟨⟨4, 5, 6⟩⟩ 7

/-- C10: for every pair of n-vectors and every radius `R ≥ 0`,
`SphericalDistance a b R` lies in `[0, π * R]`: the cross-product magnitude
passed as the first `atan2` argument is nonnegative, so the angular term
lies in `[0, π]` before scaling by `R`. -/
theorem sphericalDistance_range (a b : NVector) (R : ℝ) (hR : 0 ≤ R) :
    0 ≤ a.SphericalDistance b R ∧ a.SphericalDistance b R ≤ π * R := by
  have hy : 0 ≤ (cross a.v b.v).Magnitude := Real.sqrt_nonneg _
  obtain ⟨h0, hπ⟩ := atan2_nonneg_le_pi (cross a.v b.v).Magnitude (dot a.v b.v) hy
  unfold NVector.SphericalDistance
  exact ⟨mul_nonneg h0 hR, mul_le_mul_of_nonneg_right hπ hR⟩

/-- The on-segment check inside `Intersection`: the test
`math.Abs(dab - dai - dbi) > 1e-9` passes (no error contribution) when the
absolute value is at most `1e-9`, with the three unit-sphere spherical
distances taken between the endpoints `a`, `b` and the candidate `i`. -/
noncomputable def onSegment (a b i : NVector) : Prop :=
  |a.SphericalDistance b 1 - a.SphericalDistance i 1 -
    b.SphericalDistance i 1| ≤ 1e-9

/-- C1: `Intersection` always returns the computed point, namely the cross
product of the two great-circle plane normals, negated when its dot product
with `nv1a` is negative (so the returned point satisfies `I · nv1a ≥ 0`),
and its error component is `none` exactly when both segments pass the
on-segment check `|d(A,B) - d(A,I) - d(B,I)| ≤ 1e-9` at unit radius. -/
theorem intersection_contract (a1 b1 a2 b2 : NVector) :
    (Intersection a1 b1 a2 b2).1.v =
      (if dot (cross (cross a1.v b1.v) (cross a2.v b2.v)) a1.v < 0 then
        Vec3.mk (-(cross (cross a1.v b1.v) (cross a2.v b2.v)).x)
          (-(cross (cross a1.v b1.v) (cross a2.v b2.v)).y)
          (-(cross (cross a1.v b1.v) (cross a2.v b2.v)).z)
      else cross (cross a1.v b1.v) (cross a2.v b2.v)) ∧
    0 ≤ dot (Intersection a1 b1 a2 b2).1.v a1.v ∧
    ((Intersection a1 b1 a2 b2).2 = none ↔
      onSegment a1 b1 (Intersection a1 b1 a2 b2).1 ∧
      onSegment a2 b2 (Intersection a1 b1 a2 b2).1) := by
  have h1 : (Intersection a1 b1 a2 b2).1.v =
      (if dot (cross (cross a1.v b1.v) (cross a2.v b2.v)) a1.v < 0 then
        Vec3.mk (-(cross (cross a1.v b1.v) (cross a2.v b2.v)).x)
          (-(cross (cross a1.v b1.v) (cross a2.v b2.v)).y)
          (-(cross (cross a1.v b1.v) (cross a2.v b2.v)).z)
      else cross (cross a1.v b1.v) (cross a2.v b2.v)) := rfl
  refine ⟨h1, ?_, ?_⟩
  · rw [h1]
    by_cases hdot : dot (cross (cross a1.v b1.v) (cross a2.v b2.v)) a1.v < 0
    · rw [if_pos hdot]
      have hneg : dot (Vec3.mk (-(cross (cross a1.v b1.v) (cross a2.v b2.v)).x)
          (-(cross (cross a1.v b1.v) (cross a2.v b2.v)).y)
          (-(cross (cross a1.v b1.v) (cross a2.v b2.v)).z)) a1.v =
          -(dot (cross (cross a1.v b1.v) (cross a2.v b2.v)) a1.v) := by
        simp only [dot]
        ring
      rw [hneg]
      linarith
    · rw [if_neg hdot]
      exact not_lt.mp hdot
  · have h2 : (Intersection a1 b1 a2 b2).2 =
        (if |a2.SphericalDistance b2 1 -
              a2.SphericalDistance (Intersection a1 b1 a2 b2).1 1 -
              b2.SphericalDistance (Intersection a1 b1 a2 b2).1 1| > 1e-9 then
          some ⟨⟩
        else if |a1.SphericalDistance b1 1 -
              a1.SphericalDistance (Intersection a1 b1 a2 b2).1 1 -
              b1.SphericalDistance (Intersection a1 b1 a2 b2).1 1| > 1e-9 then
          some ⟨⟩
        else none) := rfl
    rw [h2]
    unfold onSegment
    by_cases hc2 : |a2.SphericalDistance b2 1 -
        a2.SphericalDistance (Intersection a1 b1 a2 b2).1 1 -
        b2.SphericalDistance (Intersection a1 b1 a2 b2).1 1| > 1e-9
    · rw [if_pos hc2]
      exact iff_of_false (by simp) (fun h => absurd hc2 (not_lt.mpr h.2))
    · rw [if_neg hc2]
      by_cases hc1 : |a1.SphericalDistance b1 1 -
          a1.SphericalDistance (Intersection a1 b1 a2 b2).1 1 -
          b1.SphericalDistance (Intersection a1 b1 a2 b2).1 1| > 1e-9
      · rw [if_pos hc1]
        exact iff_of_false (by simp) (fun h => absurd hc1 (not_lt.mpr h.1))
      · rw [if_neg hc1]
        exact iff_of_true rfl ⟨not_lt.mp hc1, not_lt.mp hc2⟩

/-- C8: `NewLonLat 0 90` succeeds, its result converts to the n-vector
`(0, 0, 1)`, and `NewLonLat 0 91` fails with an `InvalidLatitudeError`
carrying the original degree value `91`. -/
theorem newLonLat_validation :
    (NewLonLat 0 90).2 = none ∧
    (NewLonLat 0 90).1.ToNVector = ⟨⟨0, 0, 1⟩⟩ ∧
    NewLonLat 0 91 = (⟨0, 0⟩, some ⟨91⟩) := by
  have hpi := pi_pos
  have hc90 : ¬((90:ℝ) * π / 180 < -(0.5 * π) ∨ (90:ℝ) * π / 180 > 0.5 * π) := by
    push_neg
    constructor <;> nlinarith
  have hc91 : (91:ℝ) * π / 180 < -(0.5 * π) ∨ (91:ℝ) * π / 180 > 0.5 * π := by
    right
    nlinarith
  have h90 : NewLonLat 0 90 =
      (⟨goMod ((0:ℝ) * π / 180 + π) (2 * π) - π, (90:ℝ) * π / 180⟩, none) := by
    simp only [NewLonLat]
    rw [if_neg hc90]
  have hlon : goMod ((0:ℝ) * π / 180 + π) (2 * π) - π = 0 := by
    have : (0:ℝ) * π / 180 + π = π := by ring
    rw [this, goMod_eq_self hpi.le (by linarith)]
    ring
  have hlat : (90:ℝ) * π / 180 = π / 2 := by ring
  refine ⟨by rw [h90], ?_, ?_⟩
  · rw [h90]
    simp only [LonLat.ToNVector, hlon, hlat]
    rw [Real.sin_pi_div_two, Real.cos_pi_div_two, Real.sin_zero, Real.cos_zero]
    norm_num
  · simp only [NewLonLat]
    rw [if_pos hc91]

/-- C9: whenever `NewLonLat` reports an error, the `LonLat` value returned
alongside it is the zero value (longitude `0`, latitude `0`), and the error
carries exactly the offending degree value. -/
theorem newLonLat_error_zero_value (londeg latdeg : ℝ)
    (h : (NewLonLat londeg latdeg).2 ≠ none) :
    (NewLonLat londeg latdeg).1 = ⟨0, 0⟩ ∧
    (NewLonLat londeg latdeg).2 = some ⟨latdeg⟩ := by
  simp only [NewLonLat] at h ⊢
  by_cases hc : latdeg * π / 180 < -(0.5 * π) ∨ latdeg * π / 180 > 0.5 * π
  · rw [if_pos hc]
    exact ⟨rfl, rfl⟩
  · rw [if_neg hc] at h
    exact absurd rfl h

/-- Witness for C9 at the concrete rejected input `(5, 100)`. -/
theorem newLonLat_error_zero_value_witness :
    (NewLonLat 5 100).1 = ⟨0, 0⟩ ∧ (NewLonLat 5 100).2 = some ⟨100⟩ :=
  newLonLat_error_zero_value 5 100 (by
    simp only [NewLonLat]
    rw [if_pos (Or.inr (by linarith [pi_pos]))]
    simp)

/-- Modelled from the spec (for comparison with `RotationMatrix`): the
matrix built exactly as the specification words it, from
`east = nv × (0, 0, 1)` and `north = nv × east`, each normalized, with
row `i` holding the `i`-th components of `(north, east, -nv)`. -/
noncomputable def rotationMatrixSpec (nv : NVector) : Matrix3 :=
  let east := cross nv.v ⟨0, 0, 1⟩
  let north := cross nv.v east
  ⟨⟨north.x / north.Magnitude, east.x / east.Magnitude, -nv.v.x⟩,
   ⟨north.y / north.Magnitude, east.y / east.Magnitude, -nv.v.y⟩,
   ⟨north.z / north.Magnitude, east.z / east.Magnitude, -nv.v.z⟩⟩

/-- C4 counterexample: at `nv = (1, 0, 0)` the code's `RotationMatrix`
differs from the matrix described by the claim (`east = nv × (0, 0, 1)`);
the code computes `east = (0, 0, 1) × nv`, which is its negation. -/
theorem rotationMatrix_claim_counterexample :
    NVector.RotationMatrix ⟨⟨1, 0, 0⟩⟩ ≠ rotationMatrixSpec ⟨⟨1, 0, 0⟩⟩ := by
  intro h
  have h11 := congrArg (fun m => m.r1.y) h
  simp only [NVector.RotationMatrix, rotationMatrixSpec, rotationEast,
    rotationNorth, cross, Vec3.Magnitude] at h11
  norm_num [Real.sqrt_one] at h11

/-- C4 amended: the columns of `RotationMatrix nv` (that is, the rows of
its transpose) are the normalized north vector, the normalized east vector
and `-nv`, where `east = (0, 0, 1) × nv` (the negation of the claimed
`nv × (0, 0, 1)`) and `north = nv × east`. -/
theorem rotationMatrix_columns (nv : NVector) :
    (nv.RotationMatrix).Transpose =
      ⟨⟨(rotationNorth nv).x / (rotationNorth nv).Magnitude,
        (rotationNorth nv).y / (rotationNorth nv).Magnitude,
        (rotationNorth nv).z / (rotationNorth nv).Magnitude⟩,
       ⟨(rotationEast nv).x / (rotationEast nv).Magnitude,
        (rotationEast nv).y / (rotationEast nv).Magnitude,
        (rotationEast nv).z / (rotationEast nv).Magnitude⟩,
       ⟨-nv.v.x, -nv.v.y, -nv.v.z⟩⟩ := rfl

/-- C2 counterexample: `NewLonLat (-190) 0` is accepted (no error), yet the
stored longitude is `-19π/18 < -π`, outside `[-π, π)`: Go's `math.Mod` is a
truncated remainder, so `((lon + π) mod 2π) - π` does not renormalize
radian longitudes below `-π`. -/
theorem newLonLat_range_counterexample :
    (NewLonLat (-190) 0).2 = none ∧ (NewLonLat (-190) 0).1.Lon < -π := by
  have hpi := pi_pos
  have hc : ¬((0:ℝ) * π / 180 < -(0.5 * π) ∨ (0:ℝ) * π / 180 > 0.5 * π) := by
    push_neg
    constructor <;> nlinarith
  have heq : NewLonLat (-190) 0 =
      (⟨goMod ((-190:ℝ) * π / 180 + π) (2 * π) - π, (0:ℝ) * π / 180⟩, none) := by
    simp only [NewLonLat]
    rw [if_neg hc]
  have harg : (-190:ℝ) * π / 180 + π = -(π / 18) := by ring
  have hmod : goMod (-(π / 18)) (2 * π) = -(π / 18) := by
    unfold goMod truncR
    have hdiv : -(π / 18) / (2 * π) = -(1 / 36 : ℝ) := by
      rw [div_eq_iff (by positivity : (2:ℝ) * π ≠ 0)]
      ring
    rw [hdiv, if_neg (by norm_num)]
    rw [Int.ceil_eq_zero_iff.mpr (Set.mem_Ioc.mpr ⟨by norm_num, by norm_num⟩)]
    norm_num
  rw [heq]
  refine ⟨rfl, ?_⟩
  show goMod ((-190:ℝ) * π / 180 + π) (2 * π) - π < -π
  rw [harg, hmod]
  linarith

/-- C2 amended: for every input with `lonDeg ≥ -180` that `NewLonLat`
accepts, the stored longitude lies in `[-π, π)` and the stored latitude in
`[-π/2, π/2]` (inputs below `-180` degrees escape the truncated-remainder
normalization, as the counterexample shows). -/
theorem newLonLat_ranges (londeg latdeg : ℝ) (hlon : -180 ≤ londeg)
    (h : (NewLonLat londeg latdeg).2 = none) :
    -π ≤ (NewLonLat londeg latdeg).1.Lon ∧
    (NewLonLat londeg latdeg).1.Lon < π ∧
    -(π / 2) ≤ (NewLonLat londeg latdeg).1.Lat ∧
    (NewLonLat londeg latdeg).1.Lat ≤ π / 2 := by
  have hpi := pi_pos
  by_cases hc : latdeg * π / 180 < -(0.5 * π) ∨ latdeg * π / 180 > 0.5 * π
  · exfalso
    simp only [NewLonLat] at h
    rw [if_pos hc] at h
    simp at h
  · have heq : NewLonLat londeg latdeg =
        (⟨goMod (londeg * π / 180 + π) (2 * π) - π, latdeg * π / 180⟩, none) := by
      simp only [NewLonLat]
      rw [if_neg hc]
    push_neg at hc
    obtain ⟨hc1, hc2⟩ := hc
    have hx : 0 ≤ londeg * π / 180 + π := by
      nlinarith [mul_nonneg (by linarith : (0:ℝ) ≤ londeg + 180) hpi.le]
    have h2pi : (0:ℝ) < 2 * π := by linarith
    obtain ⟨hm0, hm1⟩ := goMod_nonneg_lt hx h2pi
    rw [heq]
    refine ⟨?_, ?_, ?_, ?_⟩
    · show -π ≤ goMod (londeg * π / 180 + π) (2 * π) - π
      linarith
    · show goMod (londeg * π / 180 + π) (2 * π) - π < π
      linarith
    · show -(π / 2) ≤ latdeg * π / 180
      linarith
    · show latdeg * π / 180 ≤ π / 2
      linarith

/-- Witness for the amended C2 at the accepted input `(0, 0)`. -/
theorem newLonLat_ranges_witness :
    -π ≤ (NewLonLat 0 0).1.Lon ∧ (NewLonLat 0 0).1.Lon < π ∧
    -(π / 2) ≤ (NewLonLat 0 0).1.Lat ∧ (NewLonLat 0 0).1.Lat ≤ π / 2 :=
  newLonLat_ranges 0 0 (by norm_num) (by
    simp only [NewLonLat]
    rw [if_neg (by push_neg; constructor <;> nlinarith [pi_pos])])

lemma atan2_zero_zero : atan2 0 0 = 0 := by
  unfold atan2
  norm_num

/-- C5 counterexample: `ll = (lon = 1, lat = π/2)` is a valid `LonLat`
(its longitude lies in `(-π/2, π/2)` since `π > 2`, and its latitude is the
boundary value `π/2`), yet the round trip recovers longitude `0`, an error
of `1` radian, far above `1e-9`: at the pole the n-vector is `(0, 0, 1)`
and `atan2 0 0 = 0` forgets the longitude. -/
theorem lonlat_roundtrip_counterexample :
    (-(π / 2) < 1 ∧ (1:ℝ) < π / 2) ∧
    ((LonLat.ToNVector ⟨1, π / 2⟩).ToLonLat).Lon = 0 ∧
    ¬(|((LonLat.ToNVector ⟨1, π / 2⟩).ToLonLat).Lon - 1| ≤ 1e-9) := by
  have hpi3 := pi_gt_three
  have h1 : LonLat.ToNVector ⟨1, π / 2⟩ = ⟨⟨0, 0, 1⟩⟩ := by
    simp only [LonLat.ToNVector]
    rw [Real.cos_pi_div_two, Real.sin_pi_div_two]
    norm_num
  have h2 : (NVector.ToLonLat ⟨⟨0, 0, 1⟩⟩).Lon = 0 := by
    simp only [NVector.ToLonLat]
    rw [atan2_zero_zero]
    show goMod (0 + 0.5 * π) π - 0.5 * π = 0
    have harg : (0:ℝ) + 0.5 * π = 0.5 * π := by ring
    rw [harg, goMod_eq_self (by nlinarith) (by nlinarith)]
    ring
  refine ⟨⟨by nlinarith, by nlinarith⟩, ?_, ?_⟩
  · rw [h1, h2]
  · rw [h1, h2]
    norm_num

/-- C5 amended: for every longitude in `(-π/2, π/2)` and every latitude in
the open interval `(-π/2, π/2)` (the poles `±π/2` are excluded, as the
counterexample shows), the round trip `ToLonLat (ToNVector ll)` recovers
`ll` exactly, in particular within `1e-9` radians. -/
theorem lonlat_roundtrip (lon lat : ℝ)
    (hlon1 : -(π / 2) < lon) (hlon2 : lon < π / 2)
    (hlat1 : -(π / 2) < lat) (hlat2 : lat < π / 2) :
    (LonLat.ToNVector ⟨lon, lat⟩).ToLonLat = ⟨lon, lat⟩ := by
  have hcoslat : 0 < Real.cos lat :=
    Real.cos_pos_of_mem_Ioo (Set.mem_Ioo.mpr ⟨hlat1, hlat2⟩)
  have hcoslon : 0 < Real.cos lon :=
    Real.cos_pos_of_mem_Ioo (Set.mem_Ioo.mpr ⟨hlon1, hlon2⟩)
  simp only [LonLat.ToNVector, NVector.ToLonLat]
  have hsq : Real.cos lon * Real.cos lat * (Real.cos lon * Real.cos lat) +
      Real.sin lon * Real.cos lat * (Real.sin lon * Real.cos lat) =
      Real.cos lat ^ 2 := by
    nlinarith [Real.sin_sq_add_cos_sq lon]
  have hsqrt : Real.sqrt (Real.cos lon * Real.cos lat * (Real.cos lon * Real.cos lat) +
      Real.sin lon * Real.cos lat * (Real.sin lon * Real.cos lat)) =
      Real.cos lat := by
    rw [hsq, Real.sqrt_sq hcoslat.le]
  have hlat' : atan2 (Real.sin lat) (Real.cos lat) = lat := by
    rw [atan2_pos_x _ _ hcoslat, ← Real.tan_eq_sin_div_cos, arctan_tan hlat1 hlat2]
  have hdiveq : Real.sin lon * Real.cos lat / (Real.cos lon * Real.cos lat) =
      Real.sin lon / Real.cos lon := by
    rw [mul_div_mul_right _ _ hcoslat.ne']
  have hlon' : atan2 (Real.sin lon * Real.cos lat)
      (Real.cos lon * Real.cos lat) = lon := by
    rw [atan2_pos_x _ _ (mul_pos hcoslon hcoslat), hdiveq,
      ← Real.tan_eq_sin_div_cos, arctan_tan hlon1 hlon2]
  rw [hsqrt, hlat', hlon']
  have hmod : goMod (lon + 0.5 * π) π - 0.5 * π = lon := by
    rw [goMod_eq_self (by linarith) (by linarith)]
    ring
  rw [hmod]

/-- Witness for the amended C5 at `lon = 0`, `lat = 0`. -/
theorem lonlat_roundtrip_witness :
    (LonLat.ToNVector ⟨0, 0⟩).ToLonLat = ⟨0, 0⟩ :=
  lonlat_roundtrip 0 0 (by linarith [pi_pos]) (by linarith [pi_pos])
    (by linarith [pi_pos]) (by linarith [pi_pos])

lemma cbrt_one : cbrt 1 = 1 := by
  unfold cbrt
  rw [if_neg (by norm_num)]
  exact Real.one_rpow _

lemma sqrt_quarter : Real.sqrt (1 / 4) = 1 / 2 := by
  rw [show (1 / 4 : ℝ) = (1 / 2) ^ 2 by norm_num, Real.sqrt_sq (by norm_num)]

lemma sqrt_quarter' : Real.sqrt (4⁻¹) = 2⁻¹ := by
  rw [show (4⁻¹ : ℝ) = 1 / 4 by norm_num, sqrt_quarter]
  norm_num

lemma sqrt_four : Real.sqrt 4 = 2 := by
  rw [show (4:ℝ) = 2 ^ 2 by norm_num, Real.sqrt_sq (by norm_num)]

/-- C6 failing input: on the unit sphere (`a = b = 1`, a legal ellipsoid
with `a ≥ b > 0`) the unit n-vector `(1, 0, 0)` maps to the p-vector
`(1, 0, 0)`, and the closed-form inverse returns `(-1, 0, 0)`: the x (and
y) components come back negated, an error of `2` in the x component, so
the claimed `1e-9` round-trip bound fails. -/
theorem pvector_roundtrip_failing :
    (NVector.ToPVector ⟨⟨1, 0, 0⟩⟩ ⟨1, 1⟩).ToNVector ⟨1, 1⟩ = ⟨⟨-1, 0, 0⟩⟩ ∧
    ¬(|((NVector.ToPVector ⟨⟨1, 0, 0⟩⟩ ⟨1, 1⟩).ToNVector ⟨1, 1⟩).v.x - 1| ≤
      1e-9) := by
  have h1 : NVector.ToPVector ⟨⟨1, 0, 0⟩⟩ ⟨1, 1⟩ = ⟨⟨1, 0, 0⟩⟩ := by
    simp only [NVector.ToPVector]
    norm_num [Real.sqrt_one]
  have h2 : PVector.ToNVector ⟨⟨1, 0, 0⟩⟩ ⟨1, 1⟩ = ⟨⟨-1, 0, 0⟩⟩ := by
    simp only [PVector.ToNVector]
    norm_num [Real.sqrt_zero, Real.sqrt_one, cbrt_one, sqrt_quarter,
      sqrt_quarter', sqrt_four]
  rw [h1, h2]
  norm_num

/-- Witness for C10 at concrete inputs. -/
theorem sphericalDistance_range_witness :
    0 ≤ NVector.SphericalDistance ⟨⟨1, 0, 0⟩⟩ ⟨⟨0, 1, 0⟩⟩ 2 ∧
    NVector.SphericalDistance ⟨⟨1, 0, 0⟩⟩ ⟨⟨0, 1, 0⟩⟩ 2 ≤ π * 2 :=
  sphericalDistance_range ⟨⟨1, 0, 0⟩⟩ ⟨⟨0, 1, 0⟩⟩ 2 (by norm_num)

end nvector
